import Mathlib

/-!
Shallow embedding of the write-scheduling engine of `gn` (a TCP/UDP traffic
generator): the `WriteOptions` policy type and `WriteOptions::from_flags`
(src/manager.rs), the dispatch loops of `SocketManager::write`
(src/manager.rs), and the `Statistics` accumulator (src/statistics.rs).

Modelling conventions:
* `u64` values are `Nat` with explicit wrap-around `% 2^64` on every
  increment (`AtomicU64::fetch_add` and the workers' local `+=` wrap; the
  claims only exercise the non-wrapping regime, made explicit by bounds
  hypotheses).
* Rust `u64` division panics on a zero divisor; `checked_div` makes the
  panic explicit as `Option.none` and `write` surfaces it as
  `WriteResult.panicked`.
* The network side of `write_stream` (TCP connect + write_all, UDP bind +
  send_to) is abstracted into an oracle (`Env`) assigning each attempt its
  observed outcome `Ok(bytes)` or `Err`; real time is abstracted into the
  number of loop iterations each duration-bound loop performs before its
  elapsed-time check triggers, plus the run's total elapsed nanoseconds.
* `f64` values produced by the statistics (`throughput`,
  `success_percentage`) are modelled by `F64`: NaN, positive infinity, or an
  exact finite value.  All quantities involved are non-negative, and the
  claims only depend on the NaN / infinity / zero cases, where IEEE-754
  double arithmetic is exact.
* `write` iterates over the resolved socket addresses of the host; as in the
  repository's own tests the host resolves to a single address, which is the
  single endpoint `Env` describes.
* `FuturesUnordered` yields completed worker tasks in a nondeterministic
  order; the joining fold is linearised in worker index order.  All folded
  quantities are commutative sums, and a join failure produces an error
  under every order, so the linearisation is faithful for the stated
  properties.
-/

/-- `2^64`: one more than the largest `u64` value. -/
def U64LIM : Nat := 2 ^ 64

/-- Model of the IEEE-754 `f64` values arising in `Statistics`: NaN,
positive infinity, or an exact finite (non-negative) value. -/
inductive F64 where
  | nan : F64
  | inf : F64
  | finite (q : ℚ) : F64
deriving DecidableEq

/-- Conversion `u64 as f64` (exact for the magnitudes the claims use). -/
def F64.ofNat (n : Nat) : F64 := F64.finite n

/-- `f64` division on the non-negative values used here: `0.0 / 0.0` is NaN,
`x / 0.0` with `x > 0` is positive infinity. -/
def F64.div : F64 → F64 → F64
  | F64.nan, _ => F64.nan
  | _, F64.nan => F64.nan
  | F64.inf, F64.inf => F64.nan
  | F64.inf, F64.finite _ => F64.inf
  | F64.finite _, F64.inf => F64.finite 0
  | F64.finite a, F64.finite b =>
      if b = 0 then (if a = 0 then F64.nan else F64.inf) else F64.finite (a / b)

/-- `f64` multiplication on the non-negative values used here. -/
def F64.mul : F64 → F64 → F64
  | F64.nan, _ => F64.nan
  | _, F64.nan => F64.nan
  | F64.inf, F64.inf => F64.inf
  | F64.inf, F64.finite b => if b = 0 then F64.nan else F64.inf
  | F64.finite a, F64.inf => if a = 0 then F64.nan else F64.inf
  | F64.finite a, F64.finite b => F64.finite (a * b)

/-- `f64` addition on the non-negative values used here. -/
def F64.add : F64 → F64 → F64
  | F64.nan, _ => F64.nan
  | _, F64.nan => F64.nan
  | F64.inf, _ => F64.inf
  | _, F64.inf => F64.inf
  | F64.finite a, F64.finite b => F64.finite (a + b)

/-- `Statistics` (src/statistics.rs): byte and outcome counters plus the
derived throughput.  `start_time` is abstracted away; the elapsed time it
induces is supplied where needed (`record_throughput`). -/
structure Statistics where
  total_bytes : Nat
  success_count : Nat
  failure_count : Nat
  throughput : F64
deriving DecidableEq

/-- `Statistics::new`: all counters zero, throughput `0.0`. -/
def Statistics.new : Statistics :=
  { total_bytes := 0, success_count := 0, failure_count := 0,
    throughput := F64.finite 0 }

/-- `Statistics::default` delegates to `Statistics::new`. -/
def Statistics.default : Statistics := Statistics.new

/-- `Statistics::increment_total`: `total_bytes.fetch_add(inc)` (wrapping). -/
def Statistics.increment_total (s : Statistics) (inc : Nat) : Statistics :=
  { s with total_bytes := (s.total_bytes + inc) % U64LIM }

/-- `Statistics::record_success`: `success_count.fetch_add(1)` (wrapping). -/
def Statistics.record_success (s : Statistics) : Statistics :=
  { s with success_count := (s.success_count + 1) % U64LIM }

/-- `Statistics::record_failure`: `failure_count.fetch_add(1)` (wrapping). -/
def Statistics.record_failure (s : Statistics) : Statistics :=
  { s with failure_count := (s.failure_count + 1) % U64LIM }

/-- `Statistics::success_percentage`:
`(success as f64 / (success as f64 + failure as f64)) * 100.0`. -/
def Statistics.success_percentage (s : Statistics) : F64 :=
  F64.mul
    (F64.div (F64.ofNat s.success_count)
      (F64.add (F64.ofNat s.success_count) (F64.ofNat s.failure_count)))
    (F64.finite 100)

/-- `std::time::Duration::as_secs` on a duration given in nanoseconds:
truncating integer division by `10^9`. -/
def as_secs (nanos : Nat) : Nat := nanos / 1000000000

/-- `Statistics::record_throughput`:
`total_bytes as f64 / start_time.elapsed().as_secs() as f64`, stored into
`throughput`.  `elapsedNanos` is the elapsed time since `start_time`. -/
def Statistics.record_throughput (s : Statistics) (elapsedNanos : Nat) :
    Statistics :=
  { s with throughput :=
      F64.div (F64.ofNat s.total_bytes) (F64.ofNat (as_secs elapsedNanos)) }

/-- `WriteOptions` (src/manager.rs): the five write-scheduling policies.
Durations are in nanoseconds. -/
inductive WriteOptions where
  | Count (n : Nat) : WriteOptions
  | Duration (d : Nat) : WriteOptions
  | CountOrDuration (n : Nat) (d : Nat) : WriteOptions
  | ConcurrencyWithCount (c : Nat) (n : Nat) : WriteOptions
  | ConcurrencyWithDuration (c : Nat) (d : Nat) : WriteOptions
deriving DecidableEq

/-- `WriteOptions::from_flags` (src/manager.rs lines 31-43), mirroring the
Rust match arm order: `(Some(d), None) if count > 1`, `(Some(d), None)`,
`(None, Some(c))`, `(Some(d), Some(c))`, `(None, None)`. -/
def WriteOptions.from_flags (count : Nat) (duration : Option Nat)
    (concurrency : Option Nat) : WriteOptions :=
  match duration, concurrency with
  | some d, none =>
      if count > 1 then WriteOptions.CountOrDuration count d
      else WriteOptions.Duration d
  | none, some c => WriteOptions.ConcurrencyWithCount c count
  | some d, some c => WriteOptions.ConcurrencyWithDuration c d
  | none, none => WriteOptions.Count count

/-- The outcome of one `write_stream` call as observed by its caller:
`Ok(bytes_sent)` or an I/O error. -/
inductive SendOutcome where
  | ok (bytes : Nat) : SendOutcome
  | err : SendOutcome
deriving DecidableEq

/-- Environment resolving the nondeterminism of one `write()` run against a
single resolved address: the I/O outcome of each sequential attempt, the I/O
outcome of each concurrent worker's attempts, whether awaiting each worker
succeeds, how many iterations each duration-bound loop performs before its
elapsed-time check triggers, and the whole run's elapsed nanoseconds. -/
structure Env where
  seqOutcome : Nat → SendOutcome
  taskOutcome : Nat → Nat → SendOutcome
  joinOk : Nat → Bool
  durTicks : Nat
  taskDurTicks : Nat → Nat
  elapsedNanos : Nat

/-- One iteration body of the sequential attempt loops of `write`
(src/manager.rs lines 90-96): on `Ok(b)` increment the byte total then record
a success; on `Err` record a failure. -/
def applyOutcome (st : Statistics) (o : SendOutcome) : Statistics :=
  match o with
  | SendOutcome.ok b => (st.increment_total b).record_success
  | SendOutcome.err => st.record_failure

/-- The first `k` outcomes drawn from an attempt oracle. -/
def outcomesOf (f : Nat → SendOutcome) (k : Nat) : List SendOutcome :=
  (List.range k).map f

/-- A sequential attempt loop: fold `applyOutcome` over the attempts. -/
def runAttempts (st : Statistics) (os : List SendOutcome) : Statistics :=
  os.foldl applyOutcome st

/-- One iteration body of a concurrent worker's loop (src/manager.rs lines
143-151): the local `(task_bytes, success, failure)` tally, updated with
wrapping `u64` arithmetic. -/
def taskStep (acc : Nat × Nat × Nat) (o : SendOutcome) : Nat × Nat × Nat :=
  match o with
  | SendOutcome.ok b => ((acc.1 + b) % U64LIM, (acc.2.1 + 1) % U64LIM, acc.2.2)
  | SendOutcome.err => (acc.1, acc.2.1, (acc.2.2 + 1) % U64LIM)

/-- A concurrent worker's whole loop: `k` attempts from its oracle folded
into a local tally starting at `(0, 0, 0)`. -/
def taskLoop (g : Nat → SendOutcome) (k : Nat) : Nat × Nat × Nat :=
  (outcomesOf g k).foldl taskStep (0, 0, 0)

/-- Folding one joined worker's tally into the engine's `Statistics`
(src/manager.rs lines 158-164): one `increment_total`, then `success`
iterations of `record_success`, then `failure` iterations of
`record_failure`. -/
def foldTally (st : Statistics) (t : Nat × Nat × Nat) : Statistics :=
  Statistics.record_failure^[t.2.2]
    (Statistics.record_success^[t.2.1] (st.increment_total t.1))

/-- The joining loop over workers (src/manager.rs lines 156-165): await each
task in turn; a failed join (`task?`) aborts the fold, carrying the
statistics accumulated so far as the error state. -/
def joinFoldAux (join : Nat → Bool) (tal : Nat → Nat × Nat × Nat) :
    List Nat → Statistics → Except Statistics Statistics
  | [], st => Except.ok st
  | t :: ts, st =>
      if join t then joinFoldAux join tal ts (foldTally st (tal t))
      else Except.error st

/-- Join the workers `0, …, c-1` in order. -/
def joinFold (join : Nat → Bool) (tal : Nat → Nat × Nat × Nat) (c : Nat)
    (st : Statistics) : Except Statistics Statistics :=
  joinFoldAux join tal (List.range c) st

/-- Rust `u64` division: panics (`none`) on a zero divisor. -/
def checked_div (a b : Nat) : Option Nat :=
  if b = 0 then none else some (a / b)

/-- Result of one `write()` call: `Ok(total_bytes)` together with the final
statistics, an `Err` return (failed worker join) with the statistics at that
point, or a panic (u64 division by zero). -/
inductive WriteResult where
  | ok (ret : Nat) (stats : Statistics) : WriteResult
  | error (stats : Statistics) : WriteResult
  | panicked : WriteResult
deriving DecidableEq

/-- `SocketManager::write` (src/manager.rs lines 81-210) against a single
resolved address, starting from statistics `st0`: dispatch on the policy,
run the corresponding loop(s), then `record_throughput` and return
`Ok(total_bytes)`.  The duration-bound loops run for the number of
iterations their elapsed-time check allows (`Env.durTicks`,
`Env.taskDurTicks`); `CountOrDuration` stops at whichever bound is reached
first, hence `min`.  `ConcurrencyWithCount` first computes
`count / concurrency`, which panics when `concurrency = 0`. -/
def write (opts : WriteOptions) (env : Env) (st0 : Statistics) : WriteResult :=
  match opts with
  | WriteOptions.Count n =>
      let st := runAttempts st0 (outcomesOf env.seqOutcome n)
      let st := st.record_throughput env.elapsedNanos
      WriteResult.ok st.total_bytes st
  | WriteOptions.Duration _ =>
      let st := runAttempts st0 (outcomesOf env.seqOutcome env.durTicks)
      let st := st.record_throughput env.elapsedNanos
      WriteResult.ok st.total_bytes st
  | WriteOptions.CountOrDuration n _ =>
      let st := runAttempts st0 (outcomesOf env.seqOutcome (min n env.durTicks))
      let st := st.record_throughput env.elapsedNanos
      WriteResult.ok st.total_bytes st
  | WriteOptions.ConcurrencyWithCount c n =>
      match checked_div n c with
      | none => WriteResult.panicked
      | some requests_per_task =>
          match joinFold env.joinOk
              (fun t => taskLoop (env.taskOutcome t) requests_per_task) c st0 with
          | Except.ok st =>
              let st := st.record_throughput env.elapsedNanos
              WriteResult.ok st.total_bytes st
          | Except.error st => WriteResult.error st
  | WriteOptions.ConcurrencyWithDuration c _ =>
      match joinFold env.joinOk
          (fun t => taskLoop (env.taskOutcome t) (env.taskDurTicks t)) c st0 with
      | Except.ok st =>
          let st := st.record_throughput env.elapsedNanos
          WriteResult.ok st.total_bytes st
      | Except.error st => WriteResult.error st

/-- The number of write attempts a policy issues, read off the loop bounds
alone (it does not depend on any attempt's outcome). -/
def plannedAttempts : WriteOptions → Env → Nat
  | WriteOptions.Count n, _ => n
  | WriteOptions.Duration _, env => env.durTicks
  | WriteOptions.CountOrDuration n _, env => min n env.durTicks
  | WriteOptions.ConcurrencyWithCount c n, _ => c * (n / c)
  | WriteOptions.ConcurrencyWithDuration c _, env =>
      ((List.range c).map env.taskDurTicks).sum

/-- The duration-bound loops' stop test as written in the code
(src/manager.rs line 102 etc.): `for_duration.elapsed() >= *duration`, a
comparison of `std::time::Duration` values at full nanosecond precision. -/
def durationStop (elapsedNanos durNanos : Nat) : Bool :=
  durNanos ≤ elapsedNanos

/-- Modelled from the spec for comparison with `durationStop`: the claimed
stop test that truncates both sides to whole seconds before comparing. -/
def durationStopWholeSeconds (elapsedNanos durNanos : Nat) : Bool :=
  as_secs durNanos ≤ as_secs elapsedNanos

/-- Number of `Ok` outcomes in a list of attempts. -/
def countOk (os : List SendOutcome) : Nat :=
  os.countP (fun o => match o with | SendOutcome.ok _ => true | SendOutcome.err => false)

/-- Number of `Err` outcomes in a list of attempts. -/
def countErr (os : List SendOutcome) : Nat :=
  os.countP (fun o => match o with | SendOutcome.ok _ => false | SendOutcome.err => true)

/-- Total bytes reported by the `Ok` outcomes of a list of attempts. -/
def sumBytes : List SendOutcome → Nat
  | [] => 0
  | SendOutcome.ok b :: os => b + sumBytes os
  | SendOutcome.err :: os => sumBytes os

/-- Pointwise order on the three counters of `Statistics`. -/
def countersLE (a b : Statistics) : Prop :=
  a.total_bytes ≤ b.total_bytes ∧ a.success_count ≤ b.success_count ∧
    a.failure_count ≤ b.failure_count

/-- An endpoint accepting every attempt of payload size `s`, every worker
join succeeding; duration loops run `k` iterations, elapsed time `e`. -/
def acceptingEnv (s k e : Nat) : Env :=
  { seqOutcome := fun _ => SendOutcome.ok s,
    taskOutcome := fun _ _ => SendOutcome.ok s,
    joinOk := fun _ => true,
    durTicks := k,
    taskDurTicks := fun _ => k,
    elapsedNanos := e }

/-- An endpoint refusing every attempt (every send yields an I/O error). -/
def refusingEnv : Env :=
  { seqOutcome := fun _ => SendOutcome.err,
    taskOutcome := fun _ _ => SendOutcome.err,
    joinOk := fun _ => true,
    durTicks := 0,
    taskDurTicks := fun _ => 0,
    elapsedNanos := 0 }

/-- An environment whose worker joins all fail. -/
def badJoinEnv : Env :=
  { seqOutcome := fun _ => SendOutcome.err,
    taskOutcome := fun _ _ => SendOutcome.err,
    joinOk := fun _ => false,
    durTicks := 0,
    taskDurTicks := fun _ => 0,
    elapsedNanos := 0 }

theorem U64LIM_pos : 0 < U64LIM := by norm_num [U64LIM]

theorem mod_shift (a b : Nat) :
    (a % U64LIM + b) % U64LIM = (a + b) % U64LIM :=
  Nat.mod_add_mod a U64LIM b

theorem applyOutcome_ok (st : Statistics) (b : Nat) :
    applyOutcome st (SendOutcome.ok b) =
      { total_bytes := (st.total_bytes + b) % U64LIM,
        success_count := (st.success_count + 1) % U64LIM,
        failure_count := st.failure_count,
        throughput := st.throughput } := rfl

theorem applyOutcome_err (st : Statistics) :
    applyOutcome st SendOutcome.err =
      { st with failure_count := (st.failure_count + 1) % U64LIM } := rfl

theorem countOk_cons_ok (b : Nat) (os : List SendOutcome) :
    countOk (SendOutcome.ok b :: os) = countOk os + 1 := by
  simp [countOk, List.countP_cons]

theorem countOk_cons_err (os : List SendOutcome) :
    countOk (SendOutcome.err :: os) = countOk os := by
  simp [countOk, List.countP_cons]

theorem countErr_cons_ok (b : Nat) (os : List SendOutcome) :
    countErr (SendOutcome.ok b :: os) = countErr os := by
  simp [countErr, List.countP_cons]

theorem countErr_cons_err (os : List SendOutcome) :
    countErr (SendOutcome.err :: os) = countErr os + 1 := by
  simp [countErr, List.countP_cons]

theorem countOk_add_countErr (os : List SendOutcome) :
    countOk os + countErr os = os.length := by
  induction os with
  | nil => rfl
  | cons o os ih =>
      cases o with
      | ok b => rw [countOk_cons_ok, countErr_cons_ok, List.length_cons]; omega
      | err => rw [countOk_cons_err, countErr_cons_err, List.length_cons]; omega

theorem runAttempts_spec (os : List SendOutcome) (st : Statistics)
    (h1 : st.total_bytes < U64LIM) (h2 : st.success_count < U64LIM)
    (h3 : st.failure_count < U64LIM) :
    (runAttempts st os).total_bytes = (st.total_bytes + sumBytes os) % U64LIM ∧
    (runAttempts st os).success_count =
      (st.success_count + countOk os) % U64LIM ∧
    (runAttempts st os).failure_count =
      (st.failure_count + countErr os) % U64LIM ∧
    (runAttempts st os).throughput = st.throughput := by
  induction os generalizing st with
  | nil =>
      refine ⟨?_, ?_, ?_, rfl⟩ <;>
        simp [runAttempts, sumBytes, countOk, countErr,
          Nat.mod_eq_of_lt h1, Nat.mod_eq_of_lt h2, Nat.mod_eq_of_lt h3]
  | cons o os ih =>
      cases o with
      | ok b =>
          have step : runAttempts st (SendOutcome.ok b :: os) =
              runAttempts (applyOutcome st (SendOutcome.ok b)) os := rfl
          rw [step, applyOutcome_ok]
          obtain ⟨k1, k2, k3, k4⟩ :=
            ih { total_bytes := (st.total_bytes + b) % U64LIM,
                 success_count := (st.success_count + 1) % U64LIM,
                 failure_count := st.failure_count,
                 throughput := st.throughput }
              (Nat.mod_lt _ U64LIM_pos) (Nat.mod_lt _ U64LIM_pos) h3
          refine ⟨?_, ?_, ?_, k4⟩
          · rw [k1]; show (_ % U64LIM + _) % U64LIM = _
            rw [mod_shift, sumBytes]; congr 1; omega
          · rw [k2]; show (_ % U64LIM + _) % U64LIM = _
            rw [mod_shift, countOk_cons_ok]; congr 1; omega
          · rw [k3]; show (st.failure_count + countErr os) % U64LIM = _
            rw [countErr_cons_ok]
      | err =>
          have step : runAttempts st (SendOutcome.err :: os) =
              runAttempts (applyOutcome st SendOutcome.err) os := rfl
          rw [step, applyOutcome_err]
          obtain ⟨k1, k2, k3, k4⟩ :=
            ih { st with failure_count := (st.failure_count + 1) % U64LIM }
              h1 h2 (Nat.mod_lt _ U64LIM_pos)
          refine ⟨?_, ?_, ?_, k4⟩
          · rw [k1]; show (st.total_bytes + sumBytes os) % U64LIM = _
            rw [sumBytes]
          · rw [k2]; show (st.success_count + countOk os) % U64LIM = _
            rw [countOk_cons_err]
          · rw [k3]; show (_ % U64LIM + _) % U64LIM = _
            rw [mod_shift, countErr_cons_err]; congr 1; omega

theorem mod_shift_assoc (a b c : Nat) :
    ((a + b) % U64LIM + c) % U64LIM = (a + (b + c)) % U64LIM := by
  rw [mod_shift, Nat.add_assoc]

theorem mod_shift_comm (a b c : Nat) :
    ((a + b) % U64LIM + c) % U64LIM = (a + (c + b)) % U64LIM := by
  rw [mod_shift]; congr 1; omega

theorem taskStep_fold_spec (os : List SendOutcome) (acc : Nat × Nat × Nat)
    (h1 : acc.1 < U64LIM) (h2 : acc.2.1 < U64LIM) (h3 : acc.2.2 < U64LIM) :
    os.foldl taskStep acc =
      ((acc.1 + sumBytes os) % U64LIM, (acc.2.1 + countOk os) % U64LIM,
        (acc.2.2 + countErr os) % U64LIM) := by
  induction os generalizing acc with
  | nil =>
      simp [sumBytes, countOk, countErr, Nat.mod_eq_of_lt h1,
        Nat.mod_eq_of_lt h2, Nat.mod_eq_of_lt h3]
  | cons o os ih =>
      cases o with
      | ok b =>
          have step : (SendOutcome.ok b :: os).foldl taskStep acc =
              os.foldl taskStep
                ((acc.1 + b) % U64LIM, (acc.2.1 + 1) % U64LIM, acc.2.2) := rfl
          have key := ih ((acc.1 + b) % U64LIM, (acc.2.1 + 1) % U64LIM, acc.2.2)
            (Nat.mod_lt _ U64LIM_pos) (Nat.mod_lt _ U64LIM_pos) h3
          rw [step, key, sumBytes, countOk_cons_ok, countErr_cons_ok,
            mod_shift_assoc, mod_shift_comm]
      | err =>
          have step : (SendOutcome.err :: os).foldl taskStep acc =
              os.foldl taskStep (acc.1, acc.2.1, (acc.2.2 + 1) % U64LIM) := rfl
          have key := ih (acc.1, acc.2.1, (acc.2.2 + 1) % U64LIM)
            h1 h2 (Nat.mod_lt _ U64LIM_pos)
          rw [step, key, sumBytes, countOk_cons_err, countErr_cons_err,
            mod_shift_comm]

theorem taskLoop_spec (g : Nat → SendOutcome) (k : Nat) :
    taskLoop g k =
      (sumBytes (outcomesOf g k) % U64LIM, countOk (outcomesOf g k) % U64LIM,
        countErr (outcomesOf g k) % U64LIM) := by
  have := taskStep_fold_spec (outcomesOf g k) (0, 0, 0) U64LIM_pos U64LIM_pos
    U64LIM_pos
  simpa [taskLoop] using this

theorem iterate_record_success (k : Nat) (st : Statistics)
    (h : st.success_count < U64LIM) :
    Statistics.record_success^[k] st =
      { st with success_count := (st.success_count + k) % U64LIM } := by
  induction k with
  | zero => simp [Nat.mod_eq_of_lt h]
  | succ k ih =>
      rw [Function.iterate_succ_apply', ih, Statistics.record_success,
        mod_shift_assoc]

theorem iterate_record_failure (k : Nat) (st : Statistics)
    (h : st.failure_count < U64LIM) :
    Statistics.record_failure^[k] st =
      { st with failure_count := (st.failure_count + k) % U64LIM } := by
  induction k with
  | zero => simp [Nat.mod_eq_of_lt h]
  | succ k ih =>
      rw [Function.iterate_succ_apply', ih, Statistics.record_failure,
        mod_shift_assoc]

theorem foldTally_spec (st : Statistics) (t : Nat × Nat × Nat)
    (h2 : st.success_count < U64LIM) (h3 : st.failure_count < U64LIM) :
    foldTally st t =
      { total_bytes := (st.total_bytes + t.1) % U64LIM,
        success_count := (st.success_count + t.2.1) % U64LIM,
        failure_count := (st.failure_count + t.2.2) % U64LIM,
        throughput := st.throughput } := by
  have e1 : foldTally st t =
      Statistics.record_failure^[t.2.2]
        (Statistics.record_success^[t.2.1] (st.increment_total t.1)) := rfl
  rw [e1, Statistics.increment_total]
  rw [iterate_record_success t.2.1
    { total_bytes := (st.total_bytes + t.1) % U64LIM,
      success_count := st.success_count,
      failure_count := st.failure_count,
      throughput := st.throughput } h2]
  rw [iterate_record_failure t.2.2
    { total_bytes := (st.total_bytes + t.1) % U64LIM,
      success_count := (st.success_count + t.2.1) % U64LIM,
      failure_count := st.failure_count,
      throughput := st.throughput } h3]

theorem tallyFold_spec (tal : Nat → Nat × Nat × Nat) (ts : List Nat)
    (st : Statistics) (h1 : st.total_bytes < U64LIM)
    (h2 : st.success_count < U64LIM) (h3 : st.failure_count < U64LIM) :
    ts.foldl (fun st t => foldTally st (tal t)) st =
      { total_bytes :=
          (st.total_bytes + (ts.map (fun t => (tal t).1)).sum) % U64LIM,
        success_count :=
          (st.success_count + (ts.map (fun t => (tal t).2.1)).sum) % U64LIM,
        failure_count :=
          (st.failure_count + (ts.map (fun t => (tal t).2.2)).sum) % U64LIM,
        throughput := st.throughput } := by
  induction ts generalizing st with
  | nil =>
      simp [Nat.mod_eq_of_lt h1, Nat.mod_eq_of_lt h2, Nat.mod_eq_of_lt h3]
  | cons t ts ih =>
      have step : (t :: ts).foldl (fun st t => foldTally st (tal t)) st =
          ts.foldl (fun st t => foldTally st (tal t)) (foldTally st (tal t)) :=
        rfl
      rw [step, foldTally_spec st (tal t) h2 h3]
      rw [ih { total_bytes := (st.total_bytes + (tal t).1) % U64LIM,
               success_count := (st.success_count + (tal t).2.1) % U64LIM,
               failure_count := (st.failure_count + (tal t).2.2) % U64LIM,
               throughput := st.throughput }
        (Nat.mod_lt _ U64LIM_pos) (Nat.mod_lt _ U64LIM_pos)
        (Nat.mod_lt _ U64LIM_pos)]
      simp only [List.map_cons, List.sum_cons]
      rw [mod_shift_assoc, mod_shift_assoc, mod_shift_assoc]

theorem joinFoldAux_allOk (join : Nat → Bool) (tal : Nat → Nat × Nat × Nat)
    (ts : List Nat) (st : Statistics) (h : ∀ t ∈ ts, join t = true) :
    joinFoldAux join tal ts st =
      Except.ok (ts.foldl (fun st t => foldTally st (tal t)) st) := by
  induction ts generalizing st with
  | nil => rfl
  | cons t ts ih =>
      rw [joinFoldAux, h t (List.mem_cons_self t ts)]
      simp only [if_true]
      rw [ih _ (fun u hu => h u (List.mem_cons_of_mem t hu))]
      rfl

theorem joinFoldAux_err (join : Nat → Bool) (tal : Nat → Nat × Nat × Nat)
    (ts : List Nat) (st : Statistics) (h : ∃ t ∈ ts, join t = false) :
    ∃ st2, joinFoldAux join tal ts st = Except.error st2 := by
  induction ts generalizing st with
  | nil => obtain ⟨t, ht, _⟩ := h; exact absurd ht (List.not_mem_nil t)
  | cons t ts ih =>
      by_cases hj : join t = true
      · rw [joinFoldAux, hj]
        simp only [if_true]
        apply ih
        obtain ⟨u, hu, hfalse⟩ := h
        rcases List.mem_cons.mp hu with rfl | hmem
        · exact absurd hj (by rw [hfalse]; decide)
        · exact ⟨u, hmem, hfalse⟩
      · refine ⟨st, ?_⟩
        rw [joinFoldAux]
        simp [hj]

theorem statistics_ext (a b : Statistics)
    (h1 : a.total_bytes = b.total_bytes)
    (h2 : a.success_count = b.success_count)
    (h3 : a.failure_count = b.failure_count)
    (h4 : a.throughput = b.throughput) : a = b := by
  cases a; cases b
  simp only [Statistics.mk.injEq]
  exact ⟨h1, h2, h3, h4⟩

theorem length_outcomesOf (f : Nat → SendOutcome) (k : Nat) :
    (outcomesOf f k).length = k := by
  simp [outcomesOf]

theorem outcomesOf_const (f : Nat → SendOutcome) (o : SendOutcome) (k : Nat)
    (h : ∀ i, f i = o) : outcomesOf f k = List.replicate k o := by
  refine List.eq_replicate_iff.mpr ⟨length_outcomesOf f k, ?_⟩
  intro b hb
  simp only [outcomesOf, List.mem_map, List.mem_range] at hb
  obtain ⟨i, _, hfb⟩ := hb
  rw [← hfb]
  exact h i

theorem sumBytes_replicate_ok (k s : Nat) :
    sumBytes (List.replicate k (SendOutcome.ok s)) = k * s := by
  induction k with
  | zero => simp [sumBytes]
  | succ k ih => rw [List.replicate_succ, sumBytes, ih]; ring

theorem countOk_replicate_ok (k s : Nat) :
    countOk (List.replicate k (SendOutcome.ok s)) = k := by
  induction k with
  | zero => rfl
  | succ k ih => rw [List.replicate_succ, countOk_cons_ok, ih]

theorem countErr_replicate_ok (k s : Nat) :
    countErr (List.replicate k (SendOutcome.ok s)) = 0 := by
  induction k with
  | zero => rfl
  | succ k ih => rw [List.replicate_succ, countErr_cons_ok, ih]

theorem sumBytes_replicate_err (k : Nat) :
    sumBytes (List.replicate k SendOutcome.err) = 0 := by
  induction k with
  | zero => rfl
  | succ k ih => rw [List.replicate_succ, sumBytes, ih]

theorem countOk_replicate_err (k : Nat) :
    countOk (List.replicate k SendOutcome.err) = 0 := by
  induction k with
  | zero => rfl
  | succ k ih => rw [List.replicate_succ, countOk_cons_err, ih]

theorem countErr_replicate_err (k : Nat) :
    countErr (List.replicate k SendOutcome.err) = k := by
  induction k with
  | zero => rfl
  | succ k ih => rw [List.replicate_succ, countErr_cons_err, ih]

/-- Claim C3: `from_flags` with concurrency present always selects a
concurrent policy: `from_flags(n, None, Some(c)) = ConcurrencyWithCount(c, n)`
for every n and c, and `from_flags(n, Some(d), Some(c)) =
ConcurrencyWithDuration(c, d)` for every n (the count is ignored there). -/
theorem claim_C3_from_flags_concurrency_wins (n d c : Nat) :
    WriteOptions.from_flags n none (some c) =
      WriteOptions.ConcurrencyWithCount c n ∧
    WriteOptions.from_flags n (some d) (some c) =
      WriteOptions.ConcurrencyWithDuration c d :=
  ⟨rfl, rfl⟩

/-- Claim C8: `from_flags(n, Some(d), None)` is `Duration(d)` when `n ≤ 1`
and `CountOrDuration(n, d)` when `n > 1`; `from_flags(n, None, None)` is
`Count(n)` for every n. -/
theorem claim_C8_from_flags_duration_branch (n d : Nat) :
    WriteOptions.from_flags n (some d) none =
      (if n ≤ 1 then WriteOptions.Duration d
       else WriteOptions.CountOrDuration n d) ∧
    WriteOptions.from_flags n none none = WriteOptions.Count n := by
  refine ⟨?_, rfl⟩
  simp only [WriteOptions.from_flags]
  by_cases h : 1 < n
  · rw [if_pos h, if_neg (by omega)]
  · rw [if_neg h, if_pos (by omega)]

/-- Claim C9: `write` under `ConcurrencyWithCount(0, n)` hits the u64
division `count / concurrency` with a zero divisor and panics, for every
environment (so before any send outcome can matter); `from_flags` does not
reject a zero concurrency and builds exactly that policy from
`(n, None, Some(0))`; by contrast `ConcurrencyWithDuration(0, d)` spawns no
workers and completes normally, returning the untouched totals. -/
theorem claim_C9_zero_concurrency_panics (n d : Nat) (env : Env)
    (st : Statistics) :
    write (WriteOptions.ConcurrencyWithCount 0 n) env st =
      WriteResult.panicked ∧
    WriteOptions.from_flags n none (some 0) =
      WriteOptions.ConcurrencyWithCount 0 n ∧
    write (WriteOptions.ConcurrencyWithDuration 0 d) env st =
      WriteResult.ok ((st.record_throughput env.elapsedNanos).total_bytes)
        (st.record_throughput env.elapsedNanos) := by
  refine ⟨?_, rfl, ?_⟩
  · simp [write, checked_div]
  · simp [write, joinFold, List.range_zero, joinFoldAux]

/-- Claim C10: a fresh `Statistics` (`new`, and `Default` which delegates to
`new`) has all counters zero and throughput `0.0`; in that state
`success_percentage` computes `0.0 / 0.0`, which is NaN. -/
theorem claim_C10_fresh_statistics_percentage_nan :
    Statistics.new.total_bytes = 0 ∧ Statistics.new.success_count = 0 ∧
    Statistics.new.failure_count = 0 ∧
    Statistics.new.throughput = F64.finite 0 ∧
    Statistics.default = Statistics.new ∧
    Statistics.new.success_percentage = F64.nan := by
  refine ⟨rfl, rfl, rfl, rfl, rfl, ?_⟩
  simp [Statistics.success_percentage, Statistics.new, F64.ofNat, F64.add,
    F64.div, F64.mul]

/-- Claim C6 counterexample: the duration-vs-elapsed stop comparison of the
duration-bound loops does NOT truncate to whole seconds: at elapsed 2.5s
against a 2.7s duration the code's full-precision comparison says continue,
while the claimed whole-second comparison would say stop. -/
theorem claim_C6_counterexample :
    durationStop 2500000000 2700000000 = false ∧
    durationStopWholeSeconds 2500000000 2700000000 = true ∧
    durationStop 2500000000 2700000000 ≠
      durationStopWholeSeconds 2500000000 2700000000 := by
  refine ⟨?_, ?_, ?_⟩ <;> decide

/-- Claim C6 (amended): only the throughput computation truncates sub-second
precision to whole seconds (`as_secs`); consequently for a run with elapsed
time under one second the divisor is the whole-second elapsed 0, and the
stored throughput is a division by zero: NaN when no bytes were written,
positive infinity otherwise.  (The duration-vs-elapsed stop comparisons
compare at full nanosecond precision, per the counterexample.) -/
theorem claim_C6_subsecond_throughput_division_by_zero (st : Statistics)
    (nanos : Nat) (h : nanos < 1000000000) :
    as_secs nanos = 0 ∧
    (st.record_throughput nanos).throughput =
      F64.div (F64.ofNat st.total_bytes) (F64.ofNat 0) ∧
    (st.total_bytes = 0 → (st.record_throughput nanos).throughput = F64.nan) ∧
    (0 < st.total_bytes →
      (st.record_throughput nanos).throughput = F64.inf) := by
  have hz : as_secs nanos = 0 := Nat.div_eq_of_lt h
  refine ⟨hz, ?_, ?_, ?_⟩
  · simp [Statistics.record_throughput, hz]
  · intro h0
    simp [Statistics.record_throughput, hz, h0, F64.ofNat, F64.div]
  · intro hpos
    have hne : (st.total_bytes : ℚ) ≠ 0 := by
      exact_mod_cast Nat.pos_iff_ne_zero.mp hpos
    simp [Statistics.record_throughput, hz, F64.ofNat, F64.div, hne]

/-- Claim C6 witness: the amended claim at a 0.5s run with no bytes. -/
theorem claim_C6_subsecond_throughput_division_by_zero_witness :
    500000000 < 1000000000 ∧
    as_secs 500000000 = 0 ∧
    (Statistics.new.record_throughput 500000000).throughput = F64.nan := by
  have h := claim_C6_subsecond_throughput_division_by_zero Statistics.new
    500000000 (by decide)
  exact ⟨by decide, h.1, h.2.2.1 rfl⟩

/-- Claim C4: `Count(n)` against an endpoint where every send succeeds with
`s` bytes performs exactly n attempts (n successes, no failures) and ends
with `total_bytes = n * s`, which `write` returns.  The bounds keep the u64
counters out of the wrap-around regime, as the claim's equations require. -/
theorem claim_C4_count_all_success (n s : Nat) (env : Env)
    (hok : ∀ i, env.seqOutcome i = SendOutcome.ok s)
    (hn : n < U64LIM) (hns : n * s < U64LIM) :
    write (WriteOptions.Count n) env Statistics.new =
      WriteResult.ok (n * s)
        { total_bytes := n * s, success_count := n, failure_count := 0,
          throughput :=
            F64.div (F64.ofNat (n * s))
              (F64.ofNat (as_secs env.elapsedNanos)) } := by
  obtain ⟨k1, k2, k3, k4⟩ := runAttempts_spec (outcomesOf env.seqOutcome n)
    Statistics.new U64LIM_pos U64LIM_pos U64LIM_pos
  have hrep : outcomesOf env.seqOutcome n = List.replicate n (SendOutcome.ok s) :=
    outcomesOf_const _ _ _ hok
  have e : runAttempts Statistics.new (outcomesOf env.seqOutcome n) =
      { total_bytes := n * s, success_count := n, failure_count := 0,
        throughput := F64.finite 0 } := by
    apply statistics_ext
    · rw [k1, hrep, sumBytes_replicate_ok]
      show (Statistics.new.total_bytes + n * s) % U64LIM = n * s
      simp [Statistics.new, Nat.mod_eq_of_lt hns]
    · rw [k2, hrep, countOk_replicate_ok]
      show (Statistics.new.success_count + n) % U64LIM = n
      simp [Statistics.new, Nat.mod_eq_of_lt hn]
    · rw [k3, hrep, countErr_replicate_ok]
      show (Statistics.new.failure_count + 0) % U64LIM = 0
      simp [Statistics.new]
    · rw [k4]
      rfl
  simp only [write]
  rw [e]
  rfl

/-- Claim C4 witness: payload of 5 bytes, `Count(5)`, always accepting. -/
theorem claim_C4_count_all_success_witness :
    5 * 5 < U64LIM ∧
    write (WriteOptions.Count 5) (acceptingEnv 5 0 0) Statistics.new =
      WriteResult.ok 25
        { total_bytes := 25, success_count := 5, failure_count := 0,
          throughput := F64.div (F64.ofNat 25) (F64.ofNat (as_secs 0)) } := by
  constructor
  · norm_num [U64LIM]
  · exact claim_C4_count_all_success 5 5 (acceptingEnv 5 0 0) (fun i => rfl)
      (by norm_num [U64LIM]) (by norm_num [U64LIM])

theorem record_throughput_success (st : Statistics) (e : Nat) :
    (st.record_throughput e).success_count = st.success_count := rfl

theorem record_throughput_failure (st : Statistics) (e : Nat) :
    (st.record_throughput e).failure_count = st.failure_count := rfl

theorem record_throughput_total (st : Statistics) (e : Nat) :
    (st.record_throughput e).total_bytes = st.total_bytes := rfl

theorem countOk_le_length (os : List SendOutcome) : countOk os ≤ os.length := by
  have := countOk_add_countErr os
  omega

theorem countErr_le_length (os : List SendOutcome) :
    countErr os ≤ os.length := by
  have := countOk_add_countErr os
  omega

theorem list_sum_add (f g : Nat → Nat) (l : List Nat) :
    (l.map f).sum + (l.map g).sum = (l.map (fun x => f x + g x)).sum := by
  induction l with
  | nil => rfl
  | cons x l ih => simp only [List.map_cons, List.sum_cons]; omega

theorem sum_map_const (l : List Nat) (a : Nat) :
    (l.map (fun _ => a)).sum = l.length * a := by
  induction l with
  | nil => simp
  | cons x l ih =>
      simp only [List.map_cons, List.sum_cons, List.length_cons, ih]
      ring

theorem sumBytes_append (l1 l2 : List SendOutcome) :
    sumBytes (l1 ++ l2) = sumBytes l1 + sumBytes l2 := by
  induction l1 with
  | nil => simp [sumBytes]
  | cons o l1 ih =>
      cases o with
      | ok b => rw [List.cons_append, sumBytes, ih, sumBytes]; ring
      | err => rw [List.cons_append, sumBytes, ih, sumBytes]

theorem countOk_append (l1 l2 : List SendOutcome) :
    countOk (l1 ++ l2) = countOk l1 + countOk l2 := by
  simp [countOk, List.countP_append]

theorem countErr_append (l1 l2 : List SendOutcome) :
    countErr (l1 ++ l2) = countErr l1 + countErr l2 := by
  simp [countErr, List.countP_append]

theorem seq_branch_sum (f : Nat → SendOutcome) (k : Nat) (e : Nat)
    (hk : k < U64LIM) :
    ((runAttempts Statistics.new (outcomesOf f k)).record_throughput
        e).success_count +
      ((runAttempts Statistics.new (outcomesOf f k)).record_throughput
        e).failure_count = k := by
  obtain ⟨k1, k2, k3, k4⟩ := runAttempts_spec (outcomesOf f k) Statistics.new
    U64LIM_pos U64LIM_pos U64LIM_pos
  have hlen : countOk (outcomesOf f k) + countErr (outcomesOf f k) = k := by
    rw [countOk_add_countErr, length_outcomesOf]
  rw [record_throughput_success, record_throughput_failure, k2, k3]
  show (0 + countOk (outcomesOf f k)) % U64LIM +
    (0 + countErr (outcomesOf f k)) % U64LIM = k
  rw [Nat.zero_add, Nat.zero_add, Nat.mod_eq_of_lt (by omega),
    Nat.mod_eq_of_lt (by omega)]
  exact hlen

theorem conc_branch_sum (g : Nat → Nat → SendOutcome) (join : Nat → Bool)
    (c : Nat) (k : Nat → Nat) (hjoin : ∀ t, join t = true)
    (hlim : ((List.range c).map k).sum < U64LIM) :
    ∃ st, joinFold join (fun t => taskLoop (g t) (k t)) c Statistics.new =
        Except.ok st ∧
      st.success_count + st.failure_count = ((List.range c).map k).sum := by
  have hkK : ∀ t ∈ List.range c, k t ≤ ((List.range c).map k).sum := by
    intro t ht
    exact List.single_le_sum (fun b _ => Nat.zero_le b) (k t)
      (List.mem_map_of_mem k ht)
  have e1 : ∀ t ∈ List.range c,
      (taskLoop (g t) (k t)).2.1 = countOk (outcomesOf (g t) (k t)) := by
    intro t ht
    rw [taskLoop_spec]
    show countOk (outcomesOf (g t) (k t)) % U64LIM = _
    have hle : countOk (outcomesOf (g t) (k t)) ≤ k t := by
      have := countOk_le_length (outcomesOf (g t) (k t))
      rwa [length_outcomesOf] at this
    exact Nat.mod_eq_of_lt (by have := hkK t ht; omega)
  have e2 : ∀ t ∈ List.range c,
      (taskLoop (g t) (k t)).2.2 = countErr (outcomesOf (g t) (k t)) := by
    intro t ht
    rw [taskLoop_spec]
    show countErr (outcomesOf (g t) (k t)) % U64LIM = _
    have hle : countErr (outcomesOf (g t) (k t)) ≤ k t := by
      have := countErr_le_length (outcomesOf (g t) (k t))
      rwa [length_outcomesOf] at this
    exact Nat.mod_eq_of_lt (by have := hkK t ht; omega)
  have hsplit :
      ((List.range c).map
        (fun t => countOk (outcomesOf (g t) (k t)))).sum +
      ((List.range c).map
        (fun t => countErr (outcomesOf (g t) (k t)))).sum =
      ((List.range c).map k).sum := by
    rw [list_sum_add]
    congr 1
    apply List.map_congr_left
    intro t _
    rw [countOk_add_countErr, length_outcomesOf]
  have hmapS : (List.range c).map
      (fun t => (taskLoop (g t) (k t)).2.1) =
      (List.range c).map (fun t => countOk (outcomesOf (g t) (k t))) :=
    List.map_congr_left e1
  have hmapF : (List.range c).map
      (fun t => (taskLoop (g t) (k t)).2.2) =
      (List.range c).map (fun t => countErr (outcomesOf (g t) (k t))) :=
    List.map_congr_left e2
  rw [joinFold,
    joinFoldAux_allOk join _ (List.range c) Statistics.new
      (fun t _ => hjoin t)]
  refine ⟨_, rfl, ?_⟩
  rw [tallyFold_spec _ _ Statistics.new U64LIM_pos U64LIM_pos U64LIM_pos]
  show (0 + ((List.range c).map (fun t => (taskLoop (g t) (k t)).2.1)).sum)
      % U64LIM +
    (0 + ((List.range c).map (fun t => (taskLoop (g t) (k t)).2.2)).sum)
      % U64LIM = ((List.range c).map k).sum
  rw [Nat.zero_add, Nat.zero_add, hmapS, hmapF,
    Nat.mod_eq_of_lt (by omega), Nat.mod_eq_of_lt (by omega)]
  exact hsplit

/-- Claim C2: a per-attempt I/O error never aborts or propagates out of the
attempt loop.  First conjunct: under every policy (all joins succeeding, a
positive concurrency where `ConcurrencyWithCount` would otherwise panic, and
loop bounds below the u64 wrap), `write` returns `Ok` and the final
`success_count + failure_count` equals the planned number of attempts — a
quantity read off the loop bounds alone, independent of any attempt's
outcome, so failures are recorded and the loops run to completion.  Second
conjunct: against an endpoint refusing every connection, `Count(3)`
completes with `success_count = 0`, `failure_count = 3`, `total_bytes = 0`,
and `write` returns `Ok(0)`. -/
theorem claim_C2_errors_recorded_never_abort (opts : WriteOptions)
    (env env3 : Env) (hjoin : ∀ t, env.joinOk t = true)
    (hcc : ∀ c n, opts = WriteOptions.ConcurrencyWithCount c n → 0 < c)
    (hlim : plannedAttempts opts env < U64LIM)
    (h3 : ∀ i, env3.seqOutcome i = SendOutcome.err) :
    (∃ ret st2, write opts env Statistics.new = WriteResult.ok ret st2 ∧
        st2.success_count + st2.failure_count = plannedAttempts opts env) ∧
    write (WriteOptions.Count 3) env3 Statistics.new =
      WriteResult.ok 0
        { total_bytes := 0, success_count := 0, failure_count := 3,
          throughput :=
            F64.div (F64.ofNat 0)
              (F64.ofNat (as_secs env3.elapsedNanos)) } := by
  constructor
  · cases opts with
    | Count n =>
        simp only [write]
        refine ⟨_, _, rfl, ?_⟩
        simp only [plannedAttempts]
        exact seq_branch_sum env.seqOutcome n env.elapsedNanos
          (by simpa [plannedAttempts] using hlim)
    | Duration d =>
        simp only [write]
        refine ⟨_, _, rfl, ?_⟩
        simp only [plannedAttempts]
        exact seq_branch_sum env.seqOutcome env.durTicks env.elapsedNanos
          (by simpa [plannedAttempts] using hlim)
    | CountOrDuration n d =>
        simp only [write]
        refine ⟨_, _, rfl, ?_⟩
        simp only [plannedAttempts]
        exact seq_branch_sum env.seqOutcome (min n env.durTicks)
          env.elapsedNanos (by simpa [plannedAttempts] using hlim)
    | ConcurrencyWithCount c n =>
        have hc : 0 < c := hcc c n rfl
        have hdiv : checked_div n c = some (n / c) := by
          rw [checked_div, if_neg (by omega)]
        have hlim2 : ((List.range c).map (fun _ => n / c)).sum < U64LIM := by
          rw [sum_map_const, List.length_range]
          simpa [plannedAttempts] using hlim
        obtain ⟨st, hst, hsum⟩ := conc_branch_sum env.taskOutcome env.joinOk c
          (fun _ => n / c) hjoin hlim2
        simp only [write, hdiv]
        rw [hst]
        refine ⟨_, _, rfl, ?_⟩
        show st.success_count + st.failure_count = _
        rw [hsum, sum_map_const, List.length_range]
        simp [plannedAttempts]
    | ConcurrencyWithDuration c d =>
        obtain ⟨st, hst, hsum⟩ := conc_branch_sum env.taskOutcome env.joinOk c
          env.taskDurTicks hjoin (by simpa [plannedAttempts] using hlim)
        simp only [write]
        rw [hst]
        refine ⟨_, _, rfl, ?_⟩
        show st.success_count + st.failure_count = _
        rw [hsum]
        simp [plannedAttempts]
  · obtain ⟨k1, k2, k3, k4⟩ := runAttempts_spec (outcomesOf env3.seqOutcome 3)
      Statistics.new U64LIM_pos U64LIM_pos U64LIM_pos
    have hrep : outcomesOf env3.seqOutcome 3 =
        List.replicate 3 SendOutcome.err :=
      outcomesOf_const _ _ _ h3
    have e : runAttempts Statistics.new (outcomesOf env3.seqOutcome 3) =
        { total_bytes := 0, success_count := 0, failure_count := 3,
          throughput := F64.finite 0 } := by
      apply statistics_ext
      · rw [k1, hrep, sumBytes_replicate_err]
        show (Statistics.new.total_bytes + 0) % U64LIM = 0
        simp [Statistics.new]
      · rw [k2, hrep, countOk_replicate_err]
        show (Statistics.new.success_count + 0) % U64LIM = 0
        simp [Statistics.new]
      · rw [k3, hrep, countErr_replicate_err]
        show (Statistics.new.failure_count + 3) % U64LIM = 3
        simp [Statistics.new]
        rw [Nat.mod_eq_of_lt (by norm_num [U64LIM])]
      · rw [k4]
        rfl
    simp only [write]
    rw [e]
    rfl

/-- Claim C2 witness: `Count(2)` against an accepting endpoint for the
general conjunct, the refusing endpoint for the concrete `Count(3)` run. -/
theorem claim_C2_errors_recorded_never_abort_witness :
    (∃ ret st2,
        write (WriteOptions.Count 2) (acceptingEnv 1 0 0) Statistics.new =
          WriteResult.ok ret st2 ∧
        st2.success_count + st2.failure_count =
          plannedAttempts (WriteOptions.Count 2) (acceptingEnv 1 0 0)) ∧
    write (WriteOptions.Count 3) refusingEnv Statistics.new =
      WriteResult.ok 0
        { total_bytes := 0, success_count := 0, failure_count := 3,
          throughput :=
            F64.div (F64.ofNat 0)
              (F64.ofNat (as_secs refusingEnv.elapsedNanos)) } :=
  claim_C2_errors_recorded_never_abort (WriteOptions.Count 2)
    (acceptingEnv 1 0 0) refusingEnv (fun t => rfl)
    (fun c n h => WriteOptions.noConfusion h)
    (by norm_num [plannedAttempts, U64LIM]) (fun i => rfl)

/-- Claim C5: under both concurrent policies, if awaiting any spawned
worker fails, `write` returns an error for the whole run rather than
reporting partial aggregate statistics as success. -/
theorem claim_C5_join_failure_fatal (c n d : Nat) (env : Env)
    (st : Statistics) (hbad : ∃ t, t < c ∧ env.joinOk t = false) :
    (∃ st2, write (WriteOptions.ConcurrencyWithCount c n) env st =
      WriteResult.error st2) ∧
    (∃ st2, write (WriteOptions.ConcurrencyWithDuration c d) env st =
      WriteResult.error st2) := by
  obtain ⟨t, htc, hf⟩ := hbad
  have hc : 0 < c := by omega
  have hmem : t ∈ List.range c := List.mem_range.mpr htc
  constructor
  · have hdiv : checked_div n c = some (n / c) := by
      rw [checked_div, if_neg (by omega)]
    obtain ⟨st2, he⟩ := joinFoldAux_err env.joinOk
      (fun u => taskLoop (env.taskOutcome u) (n / c)) (List.range c) st
      ⟨t, hmem, hf⟩
    have he2 : joinFold env.joinOk
        (fun u => taskLoop (env.taskOutcome u) (n / c)) c st =
        Except.error st2 := by
      rw [joinFold]
      exact he
    refine ⟨st2, ?_⟩
    simp only [write, hdiv, he2]
  · obtain ⟨st2, he⟩ := joinFoldAux_err env.joinOk
      (fun u => taskLoop (env.taskOutcome u) (env.taskDurTicks u))
      (List.range c) st ⟨t, hmem, hf⟩
    have he2 : joinFold env.joinOk
        (fun u => taskLoop (env.taskOutcome u) (env.taskDurTicks u)) c st =
        Except.error st2 := by
      rw [joinFold]
      exact he
    refine ⟨st2, ?_⟩
    simp only [write, he2]

/-- Claim C5 witness: one worker whose join fails, under both policies. -/
theorem claim_C5_join_failure_fatal_witness :
    (∃ st2, write (WriteOptions.ConcurrencyWithCount 1 4) badJoinEnv
      Statistics.new = WriteResult.error st2) ∧
    (∃ st2, write (WriteOptions.ConcurrencyWithDuration 1 7) badJoinEnv
      Statistics.new = WriteResult.error st2) :=
  claim_C5_join_failure_fatal 1 4 7 badJoinEnv Statistics.new
    ⟨0, Nat.zero_lt_one, rfl⟩

/-- Claim C1: `ConcurrencyWithCount(c, n)` issues exactly `c * (n / c)`
attempts (u64 integer division, remainder attempts dropped), and against an
always-accepting endpoint of payload size `s` ends with
`total_bytes = (n / c) * c * s`, which `write` returns.  `0 < c` is the
definedness condition of the claim's own `n / c` (at `c = 0` the division
panics, settled separately); the bounds keep the u64 counters out of the
wrap-around regime, as the claim's exact equations require. -/
theorem claim_C1_concurrent_count_truncation (c n s : Nat) (env : Env)
    (hc : 0 < c) (hok : ∀ t i, env.taskOutcome t i = SendOutcome.ok s)
    (hjoin : ∀ t, env.joinOk t = true) (hn : n < U64LIM)
    (hts : n / c * c * s < U64LIM) :
    write (WriteOptions.ConcurrencyWithCount c n) env Statistics.new =
      WriteResult.ok (n / c * c * s)
        { total_bytes := n / c * c * s, success_count := c * (n / c),
          failure_count := 0,
          throughput :=
            F64.div (F64.ofNat (n / c * c * s))
              (F64.ofNat (as_secs env.elapsedNanos)) } := by
  have hdiv : checked_div n c = some (n / c) := by
    rw [checked_div, if_neg (by omega)]
  have hrpt : n / c < U64LIM := Nat.lt_of_le_of_lt (Nat.div_le_self n c) hn
  have hrpts : n / c * s < U64LIM := by
    have h1 : n / c * s ≤ n / c * s * c := Nat.le_mul_of_pos_right _ hc
    have h2 : n / c * s * c = n / c * c * s := by ring
    omega
  have hcc : c * (n / c) < U64LIM := by
    have h1 : n / c * c ≤ n := Nat.div_mul_le_self n c
    have h2 : c * (n / c) = n / c * c := Nat.mul_comm c (n / c)
    omega
  have htal : ∀ t, taskLoop (env.taskOutcome t) (n / c) =
      (n / c * s, n / c, 0) := by
    intro t
    rw [taskLoop_spec,
      outcomesOf_const (env.taskOutcome t) (SendOutcome.ok s) (n / c) (hok t),
      sumBytes_replicate_ok, countOk_replicate_ok, countErr_replicate_ok]
    rw [Nat.mod_eq_of_lt hrpts, Nat.mod_eq_of_lt hrpt]
    rfl
  have hfold : joinFold env.joinOk
      (fun t => taskLoop (env.taskOutcome t) (n / c)) c Statistics.new =
      Except.ok
        { total_bytes := n / c * c * s, success_count := c * (n / c),
          failure_count := 0, throughput := F64.finite 0 } := by
    rw [joinFold,
      joinFoldAux_allOk env.joinOk _ (List.range c) Statistics.new
        (fun t _ => hjoin t),
      tallyFold_spec _ _ Statistics.new U64LIM_pos U64LIM_pos U64LIM_pos]
    congr 1
    have hm1 : (List.range c).map
        (fun t => (taskLoop (env.taskOutcome t) (n / c)).1) =
        (List.range c).map (fun _ => n / c * s) :=
      List.map_congr_left (fun t _ => by rw [htal t])
    have hm2 : (List.range c).map
        (fun t => (taskLoop (env.taskOutcome t) (n / c)).2.1) =
        (List.range c).map (fun _ => n / c) :=
      List.map_congr_left (fun t _ => by rw [htal t])
    have hm3 : (List.range c).map
        (fun t => (taskLoop (env.taskOutcome t) (n / c)).2.2) =
        (List.range c).map (fun _ => (0 : Nat)) :=
      List.map_congr_left (fun t _ => by rw [htal t])
    apply statistics_ext
    · show (Statistics.new.total_bytes +
        ((List.range c).map
          (fun t => (taskLoop (env.taskOutcome t) (n / c)).1)).sum)
          % U64LIM = n / c * c * s
      rw [hm1, sum_map_const, List.length_range]
      show (0 + c * (n / c * s)) % U64LIM = n / c * c * s
      rw [Nat.zero_add]
      have he : c * (n / c * s) = n / c * c * s := by ring
      rw [he, Nat.mod_eq_of_lt hts]
    · show (Statistics.new.success_count +
        ((List.range c).map
          (fun t => (taskLoop (env.taskOutcome t) (n / c)).2.1)).sum)
          % U64LIM = c * (n / c)
      rw [hm2, sum_map_const, List.length_range]
      show (0 + c * (n / c)) % U64LIM = c * (n / c)
      rw [Nat.zero_add, Nat.mod_eq_of_lt hcc]
    · show (Statistics.new.failure_count +
        ((List.range c).map
          (fun t => (taskLoop (env.taskOutcome t) (n / c)).2.2)).sum)
          % U64LIM = 0
      rw [hm3, sum_map_const, List.length_range]
      show (0 + c * 0) % U64LIM = 0
      simp
    · rfl
  simp only [write, hdiv]
  rw [hfold]
  rfl

/-- Claim C1 witness: `ConcurrencyWithCount(2, 5)` with payload size 3:
`5 / 2 = 2` requests per worker, 4 attempts in all, 12 bytes total. -/
theorem claim_C1_concurrent_count_truncation_witness :
    0 < 2 ∧ 5 / 2 * 2 * 3 < U64LIM ∧
    write (WriteOptions.ConcurrencyWithCount 2 5) (acceptingEnv 3 0 0)
        Statistics.new =
      WriteResult.ok (5 / 2 * 2 * 3)
        { total_bytes := 5 / 2 * 2 * 3, success_count := 2 * (5 / 2),
          failure_count := 0,
          throughput :=
            F64.div (F64.ofNat (5 / 2 * 2 * 3)) (F64.ofNat (as_secs 0)) } :=
  ⟨Nat.zero_lt_two, by norm_num [U64LIM],
    claim_C1_concurrent_count_truncation 2 5 3 (acceptingEnv 3 0 0)
      Nat.zero_lt_two (fun t i => rfl) (fun t => rfl)
      (by norm_num [U64LIM]) (by norm_num [U64LIM])⟩

theorem runAttempts_new_fields (os : List SendOutcome)
    (hs : sumBytes os < U64LIM) (hl : os.length < U64LIM) :
    (runAttempts Statistics.new os).total_bytes = sumBytes os ∧
    (runAttempts Statistics.new os).success_count = countOk os ∧
    (runAttempts Statistics.new os).failure_count = countErr os := by
  obtain ⟨k1, k2, k3, _⟩ := runAttempts_spec os Statistics.new U64LIM_pos
    U64LIM_pos U64LIM_pos
  refine ⟨?_, ?_, ?_⟩
  · rw [k1]
    show (0 + sumBytes os) % U64LIM = _
    rw [Nat.zero_add, Nat.mod_eq_of_lt hs]
  · rw [k2]
    show (0 + countOk os) % U64LIM = _
    rw [Nat.zero_add,
      Nat.mod_eq_of_lt (lt_of_le_of_lt (countOk_le_length os) hl)]
  · rw [k3]
    show (0 + countErr os) % U64LIM = _
    rw [Nat.zero_add,
      Nat.mod_eq_of_lt (lt_of_le_of_lt (countErr_le_length os) hl)]

theorem tallyFold_new_fields (tal : Nat → Nat × Nat × Nat) (ts : List Nat)
    (h1 : ((ts.map (fun t => (tal t).1)).sum) < U64LIM)
    (h2 : ((ts.map (fun t => (tal t).2.1)).sum) < U64LIM)
    (h3 : ((ts.map (fun t => (tal t).2.2)).sum) < U64LIM) :
    (ts.foldl (fun st t => foldTally st (tal t))
        Statistics.new).total_bytes = (ts.map (fun t => (tal t).1)).sum ∧
    (ts.foldl (fun st t => foldTally st (tal t))
        Statistics.new).success_count = (ts.map (fun t => (tal t).2.1)).sum ∧
    (ts.foldl (fun st t => foldTally st (tal t))
        Statistics.new).failure_count = (ts.map (fun t => (tal t).2.2)).sum := by
  rw [tallyFold_spec tal ts Statistics.new U64LIM_pos U64LIM_pos U64LIM_pos]
  refine ⟨?_, ?_, ?_⟩
  · show (0 + _) % U64LIM = _
    rw [Nat.zero_add, Nat.mod_eq_of_lt h1]
  · show (0 + _) % U64LIM = _
    rw [Nat.zero_add, Nat.mod_eq_of_lt h2]
  · show (0 + _) % U64LIM = _
    rw [Nat.zero_add, Nat.mod_eq_of_lt h3]

theorem sumBytes_take_le (os : List SendOutcome) (k : Nat) :
    sumBytes (os.take k) ≤ sumBytes os := by
  conv_rhs => rw [← List.take_append_drop k os]
  rw [sumBytes_append]
  omega

theorem countOk_take_le (os : List SendOutcome) (k : Nat) :
    countOk (os.take k) ≤ countOk os := by
  conv_rhs => rw [← List.take_append_drop k os]
  rw [countOk_append]
  omega

theorem countErr_take_le (os : List SendOutcome) (k : Nat) :
    countErr (os.take k) ≤ countErr os := by
  conv_rhs => rw [← List.take_append_drop k os]
  rw [countErr_append]
  omega

theorem sumBytes_take_succ (os : List SendOutcome) (k : Nat) :
    sumBytes (os.take k) ≤ sumBytes (os.take (k + 1)) := by
  rw [List.take_add, sumBytes_append]
  omega

theorem countOk_take_succ (os : List SendOutcome) (k : Nat) :
    countOk (os.take k) ≤ countOk (os.take (k + 1)) := by
  rw [List.take_add, countOk_append]
  omega

theorem countErr_take_succ (os : List SendOutcome) (k : Nat) :
    countErr (os.take k) ≤ countErr (os.take (k + 1)) := by
  rw [List.take_add, countErr_append]
  omega

theorem sum_take_le (f : Nat → Nat) (ts : List Nat) (j : Nat) :
    ((ts.take j).map f).sum ≤ (ts.map f).sum := by
  conv_rhs => rw [← List.take_append_drop j ts]
  rw [List.map_append, List.sum_append]
  omega

theorem sum_take_succ (f : Nat → Nat) (ts : List Nat) (j : Nat) :
    ((ts.take j).map f).sum ≤ ((ts.take (j + 1)).map f).sum := by
  rw [List.take_add, List.map_append, List.sum_append]
  omega

/-- Claim C7: throughout a run the statistics counters only increase, and at
every point `success_count + failure_count` equals the number of attempts
issued so far, each attempt incrementing exactly one of the two counters.
Stated over the three loop shapes every policy is built from, at every
prefix point: (a) after any `k` attempts of a sequential loop the counters
are pointwise ≤ the counters after `k + 1` attempts, (b) they account
exactly for the `k` attempts issued so far; (c) a concurrent worker's local
tally accounts exactly for its first `k` attempts the same way; (d) folding
joined workers' tallies only increases the counters step by step, and
(e) after folding any `j` workers the counters equal the folded local
tallies.  The bounds keep all u64 counters out of the wrap-around regime. -/
theorem claim_C7_monotone_counters_attempt_accounting
    (os : List SendOutcome) (k : Nat) (tal : Nat → Nat × Nat × Nat)
    (ts : List Nat) (j : Nat)
    (hlen : os.length < U64LIM) (hsum : sumBytes os < U64LIM)
    (hk : k ≤ os.length)
    (hSb : ((ts.map (fun t => (tal t).1)).sum) < U64LIM)
    (hSs : ((ts.map (fun t => (tal t).2.1)).sum) < U64LIM)
    (hSf : ((ts.map (fun t => (tal t).2.2)).sum) < U64LIM) :
    countersLE (runAttempts Statistics.new (os.take k))
      (runAttempts Statistics.new (os.take (k + 1))) ∧
    (runAttempts Statistics.new (os.take k)).success_count +
      (runAttempts Statistics.new (os.take k)).failure_count = k ∧
    ((os.take k).foldl taskStep (0, 0, 0)).2.1 +
      ((os.take k).foldl taskStep (0, 0, 0)).2.2 = k ∧
    countersLE
      ((ts.take j).foldl (fun st t => foldTally st (tal t)) Statistics.new)
      ((ts.take (j + 1)).foldl (fun st t => foldTally st (tal t))
        Statistics.new) ∧
    ((ts.take j).foldl (fun st t => foldTally st (tal t))
        Statistics.new).success_count +
      ((ts.take j).foldl (fun st t => foldTally st (tal t))
        Statistics.new).failure_count =
      ((ts.take j).map (fun t => (tal t).2.1)).sum +
        ((ts.take j).map (fun t => (tal t).2.2)).sum := by
  have hlentk : ∀ q : Nat, (os.take q).length < U64LIM := by
    intro q
    rw [List.length_take]
    omega
  have hsumtk : ∀ q : Nat, sumBytes (os.take q) < U64LIM := fun q =>
    lt_of_le_of_lt (sumBytes_take_le os q) hsum
  obtain ⟨a1, a2, a3⟩ := runAttempts_new_fields (os.take k) (hsumtk k)
    (hlentk k)
  obtain ⟨b1, b2, b3⟩ := runAttempts_new_fields (os.take (k + 1))
    (hsumtk (k + 1)) (hlentk (k + 1))
  have hcnt : countOk (os.take k) + countErr (os.take k) = k := by
    rw [countOk_add_countErr, List.length_take]
    omega
  refine ⟨⟨?_, ?_, ?_⟩, ?_, ?_, ?_, ?_⟩
  · rw [a1, b1]; exact sumBytes_take_succ os k
  · rw [a2, b2]; exact countOk_take_succ os k
  · rw [a3, b3]; exact countErr_take_succ os k
  · rw [a2, a3]; exact hcnt
  · rw [taskStep_fold_spec (os.take k) (0, 0, 0) U64LIM_pos U64LIM_pos
      U64LIM_pos]
    show (0 + countOk (os.take k)) % U64LIM +
      (0 + countErr (os.take k)) % U64LIM = k
    rw [Nat.zero_add, Nat.zero_add,
      Nat.mod_eq_of_lt (lt_of_le_of_lt (countOk_le_length _) (hlentk k)),
      Nat.mod_eq_of_lt (lt_of_le_of_lt (countErr_le_length _) (hlentk k))]
    exact hcnt
  · obtain ⟨d1, d2, d3⟩ := tallyFold_new_fields tal (ts.take j)
      (lt_of_le_of_lt (sum_take_le _ ts j) hSb)
      (lt_of_le_of_lt (sum_take_le _ ts j) hSs)
      (lt_of_le_of_lt (sum_take_le _ ts j) hSf)
    obtain ⟨e1, e2, e3⟩ := tallyFold_new_fields tal (ts.take (j + 1))
      (lt_of_le_of_lt (sum_take_le _ ts (j + 1)) hSb)
      (lt_of_le_of_lt (sum_take_le _ ts (j + 1)) hSs)
      (lt_of_le_of_lt (sum_take_le _ ts (j + 1)) hSf)
    refine ⟨?_, ?_, ?_⟩
    · rw [d1, e1]; exact sum_take_succ _ ts j
    · rw [d2, e2]; exact sum_take_succ _ ts j
    · rw [d3, e3]; exact sum_take_succ _ ts j
  · obtain ⟨d1, d2, d3⟩ := tallyFold_new_fields tal (ts.take j)
      (lt_of_le_of_lt (sum_take_le _ ts j) hSb)
      (lt_of_le_of_lt (sum_take_le _ ts j) hSs)
      (lt_of_le_of_lt (sum_take_le _ ts j) hSf)
    rw [d2, d3]

/-- Claim C7 witness: two sequential attempts (one success of 2 bytes, one
failure) at prefix point 1, and two worker tallies folded at prefix 1. -/
theorem claim_C7_monotone_counters_attempt_accounting_witness :
    countersLE
      (runAttempts Statistics.new ([SendOutcome.ok 2, SendOutcome.err].take 1))
      (runAttempts Statistics.new
        ([SendOutcome.ok 2, SendOutcome.err].take 2)) ∧
    (runAttempts Statistics.new
        ([SendOutcome.ok 2, SendOutcome.err].take 1)).success_count +
      (runAttempts Statistics.new
        ([SendOutcome.ok 2, SendOutcome.err].take 1)).failure_count = 1 ∧
    (([SendOutcome.ok 2, SendOutcome.err].take 1).foldl taskStep
        (0, 0, 0)).2.1 +
      (([SendOutcome.ok 2, SendOutcome.err].take 1).foldl taskStep
        (0, 0, 0)).2.2 = 1 ∧
    countersLE
      (([0, 1].take 1).foldl (fun st t => foldTally st (t, t, 1))
        Statistics.new)
      (([0, 1].take 2).foldl (fun st t => foldTally st (t, t, 1))
        Statistics.new) ∧
    (([0, 1].take 1).foldl (fun st t => foldTally st (t, t, 1))
        Statistics.new).success_count +
      (([0, 1].take 1).foldl (fun st t => foldTally st (t, t, 1))
        Statistics.new).failure_count =
      (([0, 1].take 1).map (fun t => t)).sum +
        (([0, 1].take 1).map (fun _ => (1 : Nat))).sum :=
  claim_C7_monotone_counters_attempt_accounting
    [SendOutcome.ok 2, SendOutcome.err] 1 (fun t => (t, t, 1)) [0, 1] 1
    (by decide) (by decide) (by decide) (by decide) (by decide) (by decide)
